import Mathlib

/-!
Verification of the synthesis-orchestration pipeline in `src/main.py` of the
TTS_Audio_Text_Preprocessing repository.

The file shallow-embeds the Python code that the claims are about:

* `remove_module_prefix` (src/main.py:18-20) — the dict comprehension
  `{k.replace("module.", ""): v for k, v in state_dict.items()}`;
* `load_checkpoint` (src/main.py:80-91) — existence assert, bundle
  deserialization, the `'state_dict' in checkpoint_dict` test and the strict
  `model.load_state_dict` application;
* `Synthesizer.inference` / `Synthesizer.inference_phrase`
  (src/main.py:111-123) — the neural forward passes are external models and
  are abstracted as an opaque per-sentence sample function, while the phrase
  handling (`phrase.strip().split('\n')`, silence substitution for empty
  lines, `np.hstack` concatenation) is embedded literally;
* the argparse surface (src/main.py:129-172), the `synthesize` branch
  (src/main.py:182-188) and `Synthesizer.__init__` (src/main.py:95-109)
  attribute accesses, with Python attribute lookup made explicit so that
  `AttributeError` behaviour is visible.

Python strings are lists of characters; audio sample values are modelled as
integers, since no claim depends on floating-point arithmetic, only on
segment lengths, ordering and the zero samples of silence segments.
-/

set_option maxRecDepth 100000

/-- Python strings, modelled as lists of characters. -/
abbrev PyStr := List Char

/-- The ASCII whitespace characters recognised by Python's `str.strip`
(space, tab, newline, carriage return, vertical tab, form feed). -/
def pyIsSpace (c : Char) : Bool :=
  c == ' ' || c == '\t' || c == '\n' || c == '\r' ||
    c == Char.ofNat 11 || c == Char.ofNat 12

/-- Python `str.strip()`: drop leading and trailing whitespace. -/
def pyStrip (s : PyStr) : PyStr :=
  ((s.dropWhile pyIsSpace).reverse.dropWhile pyIsSpace).reverse

/-- The string is empty or does not begin with whitespace (so `str.strip`
removes nothing at the front). -/
def headNotSpace (l : PyStr) : Bool :=
  (l.head?).elim true (fun c => !pyIsSpace c)

/-- The string is empty or does not end with whitespace (so `str.strip`
removes nothing at the back). -/
def lastNotSpace (l : PyStr) : Bool :=
  (l.getLast?).elim true (fun c => !pyIsSpace c)

/-- Python `str.split("\n")`: split at every newline, keeping empty pieces,
so that `"".split("\n") = [""]` and `"\n".split("\n") = ["", ""]`. -/
def splitNL : PyStr → List PyStr
  | [] => [[]]
  | c :: rest =>
    if c = '\n' then [] :: splitNL rest
    else (c :: (splitNL rest).headD []) :: (splitNL rest).tail

/-- Python `k.replace("module.", "")` (src/main.py:20): scan left to right
and delete every (non-overlapping) occurrence of the substring `module.`. -/
def stripModule : PyStr → PyStr
  | 'm' :: 'o' :: 'd' :: 'u' :: 'l' :: 'e' :: '.' :: rest => stripModule rest
  | c :: rest => c :: stripModule rest
  | [] => []

/-- Whether the substring `module.` occurs anywhere in the string. -/
def hasModule : PyStr → Bool
  | 'm' :: 'o' :: 'd' :: 'u' :: 'l' :: 'e' :: '.' :: _ => true
  | _ :: rest => hasModule rest
  | [] => false

/-- Lookup in a Python dict represented as an insertion-ordered
association list. -/
def pyLookup {V : Type} (d : List (PyStr × V)) (k : PyStr) : Option V :=
  (d.find? (fun kv => kv.1 == k)).map (fun kv => kv.2)

/-- One insertion step of building a Python dict: an existing key keeps its
position and gets the new value, a new key is appended at the end. -/
def dictInsert {V : Type} (d : List (PyStr × V)) (k : PyStr) (v : V) :
    List (PyStr × V) :=
  if d.any (fun kv => kv.1 == k) then
    d.map (fun kv => if kv.1 == k then (k, v) else kv)
  else d ++ [(k, v)]

/-- Building a Python dict from a sequence of key-value pairs, as a dict
comprehension does: later occurrences of a key overwrite earlier ones. -/
def dictOfPairs {V : Type} (ps : List (PyStr × V)) : List (PyStr × V) :=
  ps.foldl (fun d kv => dictInsert d kv.1 kv.2) []

/-- src/main.py:18-20: `remove_module_prefix(state_dict)` returns
`{k.replace("module.", ""): v for k, v in state_dict.items()}`. -/
def remove_module_prefix {V : Type} (state_dict : List (PyStr × V)) :
    List (PyStr × V) :=
  dictOfPairs (state_dict.map (fun kv => (stripModule kv.1, kv.2)))

/-- A model state dict: parameter name to parameter value. -/
abbrev StateDict (V : Type) := List (PyStr × V)

/-- A deserialized checkpoint bundle: named top-level fields. Only the
`state_dict` field is contractually relevant to loading; the values of the
other fields play no role in any claim and are given the same shape. -/
abbrev Bundle (V : Type) := List (PyStr × StateDict V)

/-- The spec's error taxonomy for the Checkpoint Loader (spec section 7):
`NotFound` models the failed `assert os.path.isfile` (src/main.py:82),
`InvalidFormat` the `KeyError` naming the bundle's top-level keys
(src/main.py:89), `Incompatible` a parameter-name mismatch inside
`model.load_state_dict`. -/
inductive LoadError where
  | NotFound
  | InvalidFormat (keys : List PyStr)
  | Incompatible
deriving DecidableEq

/-- A model instance: its named parameters. -/
structure TModel (V : Type) where
  params : StateDict V
deriving DecidableEq

/-- PyTorch's strict `model.load_state_dict(sd)`, an external collaborator
of src/main.py: it succeeds exactly when the provided keys coincide with the
model's own parameter names, replacing every parameter value in place; any
missing or unexpected key fails (the spec's `IncompatibleCheckpoint`). -/
def load_state_dict {V : Type} (model : TModel V) (sd : StateDict V) :
    Except LoadError (TModel V) :=
  if sd.all (fun kv => model.params.any (fun pv => pv.1 == kv.1))
      && model.params.all (fun pv => sd.any (fun kv => kv.1 == pv.1)) then
    .ok (TModel.mk (model.params.map
      (fun pv => (pv.1, (pyLookup sd pv.1).getD pv.2))))
  else
    .error .Incompatible

/-- The (string) name of the checkpoint bundle's parameter-mapping field. -/
def kStateDict : PyStr := "state_dict".toList

/-- src/main.py:80-91, `load_checkpoint(checkpoint_path, model)`:
assert the file exists, deserialize it (the file system is modelled as a
partial map from paths to bundles), then apply `checkpoint_dict['state_dict']`
to the model if that field is present, and raise the `KeyError` naming the
bundle's top-level keys otherwise. -/
def load_checkpoint {V : Type} (fs : PyStr → Option (Bundle V))
    (checkpoint_path : PyStr) (model : TModel V) :
    Except LoadError (TModel V) :=
  match fs checkpoint_path with
  | none => .error .NotFound
  | some checkpoint_dict =>
    match pyLookup checkpoint_dict kStateDict with
    | some sd => load_state_dict model sd
    | none => .error (.InvalidFormat (checkpoint_dict.map (fun kv => kv.1)))

/-- src/main.py:93-123, the `Synthesizer`. The composition
`text_to_sequence` → `tacotron.inference` → `waveglow.infer` → `audio[0]`
inside `inference` runs external pre-trained networks; it is abstracted as
the opaque field `synth` mapping a sentence to its sample sequence. The
field `sampling_rate` models `self.hparams.sampling_rate`. -/
structure Synthesizer where
  synth : PyStr → List ℤ
  sampling_rate : ℕ

/-- src/main.py:111-117, `Synthesizer.inference(text)`: synthesize one
sentence and return the samples with the configured sampling rate. -/
def Synthesizer.inference (s : Synthesizer) (text : PyStr) : List ℤ × ℕ :=
  (s.synth text, s.sampling_rate)

/-- src/main.py:121: `texts = phrase.strip().split('\n')`. -/
def phraseTexts (phrase : PyStr) : List PyStr :=
  splitNL (pyStrip phrase)

/-- src/main.py:119-123, `Synthesizer.inference_phrase(phrase, sep_length)`
(the default `sep_length` at call sites is 4000): split the stripped phrase
into lines, synthesize every non-empty line, substitute `sep_length` zero
samples for an empty line, and return the `np.hstack` concatenation with the
configured sampling rate. -/
def Synthesizer.inference_phrase (s : Synthesizer) (phrase : PyStr)
    (sep_length : ℕ) : List ℤ × ℕ :=
  let texts := phraseTexts phrase
  let audios := texts.map (fun text =>
    if text ≠ [] then (s.inference text).1 else List.replicate sep_length (0 : ℤ))
  (audios.flatten, s.sampling_rate)

/-- The values held by a parsed-argument namespace. -/
inductive PyVal where
  | vstr (s : PyStr)
  | vint (n : ℤ)
  | vbool (b : Bool)
  | vnone
deriving DecidableEq

/-- The Python exceptions arising in the modelled CLI paths:
`attributeError name` is the `AttributeError` of reading a missing attribute
`name`, `valueError` the `ValueError` of src/main.py:184. -/
inductive PyError where
  | attributeError (name : PyStr)
  | valueError
deriving DecidableEq

/-- An argparse namespace: attribute lookup by name, `none` meaning the
attribute does not exist (so reading it raises `AttributeError`). -/
abbrev PyNamespace := PyStr → Option PyVal

/-- Python attribute access `args.name`. -/
def getattrNS (args : PyNamespace) (name : PyStr) : Except PyError PyVal :=
  match args name with
  | some v => .ok v
  | none => .error (.attributeError name)

/-- Python truthiness of the modelled values (`if text`, `if not args.x`). -/
def truthy : PyVal → Bool
  | .vstr s => !s.isEmpty
  | .vint n => n != 0
  | .vbool b => b
  | .vnone => false

/-- An optional string argument (`default=None` in argparse). -/
def optStr : Option PyStr → PyVal
  | some s => .vstr s
  | none => .vnone

def kMode : PyStr := "mode".toList
def kOutputDirectory : PyStr := "output_directory".toList
def kLogDirectory : PyStr := "log_directory".toList
def kCheckpointPath : PyStr := "checkpoint_path".toList
def kWarmStart : PyStr := "warm_start".toList
def kNGpus : PyStr := "n_gpus".toList
def kConfig : PyStr := "config".toList
def kRank : PyStr := "rank".toList
def kGroupName : PyStr := "group_name".toList
def kBestTacotronPath : PyStr := "best_tacotron_path".toList
def kBestWaveglowPath : PyStr := "best_waveglow_path".toList
def kOutputAudio : PyStr := "output_audio".toList
def kText : PyStr := "text".toList
def kTacotronCheckpoint : PyStr := "tacotron_checkpoint".toList
def kWaveglowCheckpoint : PyStr := "waveglow_checkpoint".toList
def kBestWaveglowUUPath : PyStr := "best_waveglow__path".toList

/-! Concrete strings used by the concrete-input theorems below. -/

def sModuleW : PyStr := "module.w".toList
def sModuleB : PyStr := "module.b".toList
def sEpoch : PyStr := "epoch".toList
def sCkpt : PyStr := "ck.pt".toList

/-- src/main.py:129-172: the namespace produced by this program's argument
parser. It defines exactly the attributes registered on lines 134-169, for
whatever values parsing produced, plus whatever extra attributes
`add_hparams` (an external collaborator from `tacotron2.hparams`, supplying
hyperparameter settings such as the sampling rate and cuDNN flags) registers;
those extras are the `hp` component. Every registered argument has a default,
so all thirteen attributes are always present. -/
def parsedArgs (mode od ld : PyStr) (cp : Option PyStr) (ws : Bool) (ng : ℤ)
    (cfg : Option PyStr) (rk : ℤ) (gn btp bwp oa txt : PyStr)
    (hp : PyNamespace) : PyNamespace :=
  fun name =>
    if name = kMode then some (.vstr mode)
    else if name = kOutputDirectory then some (.vstr od)
    else if name = kLogDirectory then some (.vstr ld)
    else if name = kCheckpointPath then some (optStr cp)
    else if name = kWarmStart then some (.vbool ws)
    else if name = kNGpus then some (.vint ng)
    else if name = kConfig then some (optStr cfg)
    else if name = kRank then some (.vint rk)
    else if name = kGroupName then some (.vstr gn)
    else if name = kBestTacotronPath then some (.vstr btp)
    else if name = kBestWaveglowPath then some (.vstr bwp)
    else if name = kOutputAudio then some (.vstr oa)
    else if name = kText then some (.vstr txt)
    else hp name

/-- src/main.py:182-188, the `synthesize` branch: evaluate
`args.tacotron_checkpoint`, then (only if that was truthy) evaluate
`args.waveglow_checkpoint`, raising `ValueError` if either is falsy, and
otherwise go on to construct the `Synthesizer` and synthesize; everything
from the construction on is the continuation `construct`. -/
def synthesize_branch {α : Type} (args : PyNamespace)
    (construct : PyNamespace → Except PyError α) : Except PyError α :=
  match getattrNS args kTacotronCheckpoint with
  | .error e => .error e
  | .ok tc =>
    if truthy tc = false then .error .valueError
    else
      match getattrNS args kWaveglowCheckpoint with
      | .error e => .error e
      | .ok wc =>
        if truthy wc = false then .error .valueError
        else construct args

/-- src/main.py:95-109, the attribute reads opening `Synthesizer.__init__`:
`tacotron_check = args.best_tacotron_path` then
`waveglow_check = args.best_waveglow__path` (note the doubled underscore).
Everything after line 98 — hyperparameter resolution, model construction,
checkpoint loading, denoiser derivation — is the continuation `rest`, which
receives the two path values. -/
def synthesizer_init {α : Type} (args : PyNamespace)
    (rest : PyVal → PyVal → Except PyError α) : Except PyError α :=
  match getattrNS args kBestTacotronPath with
  | .error e => .error e
  | .ok tacotron_check =>
    match getattrNS args kBestWaveglowUUPath with
    | .error e => .error e
    | .ok waveglow_check => rest tacotron_check waveglow_check

/-! Helper lemmas about the embedded string operations. -/

theorem dropWhile_pyIsSpace_eq_self (l : PyStr) (h : headNotSpace l = true) :
    l.dropWhile pyIsSpace = l := by
  cases l with
  | nil => rfl
  | cons a t =>
    have ha : pyIsSpace a = false := by
      simpa [headNotSpace] using h
    rw [List.dropWhile_cons]
    simp [ha]

theorem pyStrip_eq_self (l : PyStr) (h1 : headNotSpace l = true)
    (h2 : lastNotSpace l = true) : pyStrip l = l := by
  unfold pyStrip
  rw [dropWhile_pyIsSpace_eq_self l h1]
  have h3 : headNotSpace l.reverse = true := by
    unfold headNotSpace
    rw [List.head?_reverse]
    exact h2
  rw [dropWhile_pyIsSpace_eq_self _ h3, List.reverse_reverse]

theorem splitNL_of_no_nl (l : PyStr) (h : '\n' ∉ l) : splitNL l = [l] := by
  induction l with
  | nil => rfl
  | cons c rest ih =>
    have hc : ¬ (c = '\n') := fun e => h (by simp [e])
    have h2 : '\n' ∉ rest := fun m => h (List.mem_cons_of_mem _ m)
    simp [splitNL, hc, ih h2]

theorem splitNL_two (A B : PyStr) (hA : '\n' ∉ A) (hB : '\n' ∉ B) :
    splitNL (A ++ '\n' :: B) = [A, B] := by
  induction A with
  | nil => simp [splitNL, splitNL_of_no_nl B hB]
  | cons c A2 ih =>
    have hc : ¬ (c = '\n') := fun e => hA (by simp [e])
    have hA2 : '\n' ∉ A2 := fun m => hA (List.mem_cons_of_mem _ m)
    simp [splitNL, hc, ih hA2]

theorem hasModule_cons (c : Char) (rest : PyStr)
    (h : hasModule (c :: rest) = false) : hasModule rest = false := by
  rw [hasModule.eq_def] at h
  split at h
  · exact absurd h (by simp)
  · rename_i x1 hd rs hnm heq
    injection heq with h1 h2
    subst h2
    exact h
  · rename_i x1 heq
    exact absurd heq (by simp)

theorem stripModule_id_of_bounded (n : ℕ) :
    ∀ l : PyStr, l.length ≤ n → hasModule l = false → stripModule l = l := by
  induction n with
  | zero =>
    intro l hl _
    have hnil : l = [] := List.length_eq_zero.mp (Nat.le_zero.mp hl)
    subst hnil
    rfl
  | succ n ih =>
    intro l hl h
    cases l with
    | nil => rfl
    | cons c rest =>
      rw [stripModule.eq_def]
      split
      · rename_i x1 rs heq
        rw [heq] at h
        simp [hasModule] at h
      · rename_i x1 hd rs hnm heq
        injection heq with h1 h2
        subst h1
        subst h2
        have hlen : rest.length ≤ n := by
          simp only [List.length_cons] at hl
          omega
        rw [ih rest hlen (hasModule_cons c rest h)]
      · rename_i x1 heq
        exact absurd heq (by simp)

/-- If a key contains no occurrence of `module.`, replacing that substring
by the empty string leaves the key unchanged. -/
theorem stripModule_id (l : PyStr) (h : hasModule l = false) :
    stripModule l = l :=
  stripModule_id_of_bounded l.length l (Nat.le_refl _) h
theorem foldl_dictInsert {V : Type} (ps : List (PyStr × V)) :
    ∀ d : List (PyStr × V),
      ((d.map Prod.fst) ++ ps.map Prod.fst).Nodup →
      ps.foldl (fun d kv => dictInsert d kv.1 kv.2) d = d ++ ps := by
  induction ps with
  | nil =>
    intro d h
    simp
  | cons kv ps ih =>
    intro d h
    obtain ⟨k, v⟩ := kv
    have hk : k ∉ d.map Prod.fst := by
      intro hmem
      rcases List.nodup_append.mp h with ⟨h1, h2, hdisj⟩
      exact hdisj hmem (List.mem_cons_self k _)
    have hins : dictInsert d k v = d ++ [(k, v)] := by
      have hany : d.any (fun kv2 => kv2.1 == k) = false := by
        rw [List.any_eq_false]
        intro x hx hxk
        exact hk (List.mem_map.mpr ⟨x, hx, by simpa [beq_iff_eq] using hxk⟩)
      simp [dictInsert, hany]
    have h2 : (((d ++ [(k, v)]).map Prod.fst) ++ ps.map Prod.fst).Nodup := by
      simpa [List.append_assoc] using h
    simp only [List.foldl_cons]
    rw [show dictInsert d k v = d ++ [(k, v)] from hins, ih (d ++ [(k, v)]) h2]
    simp

theorem dictOfPairs_eq_self {V : Type} (ps : List (PyStr × V))
    (h : (ps.map Prod.fst).Nodup) : dictOfPairs ps = ps := by
  unfold dictOfPairs
  rw [foldl_dictInsert ps [] (by simpa using h)]
  simp

theorem map_strip_pair_id {V : Type} (sd : List (PyStr × V))
    (hall : ∀ kv ∈ sd, hasModule kv.1 = false) :
    sd.map (fun kv => (stripModule kv.1, kv.2)) = sd := by
  induction sd with
  | nil => rfl
  | cons kv sd ih =>
    simp only [List.map_cons]
    rw [stripModule_id kv.1 (hall kv (List.mem_cons_self _ _)),
      ih (fun kv2 h2 => hall kv2 (List.mem_cons_of_mem _ h2))]

theorem flatten_map_length (s : Synthesizer) (sep : ℕ) (ts : List PyStr) :
    ((ts.map (fun t => if t ≠ [] then (s.inference t).1
        else List.replicate sep (0 : ℤ))).flatten).length
      = (((ts.filter (fun t => !t.isEmpty)).map
            (fun t => ((s.inference t).1).length)).sum
        + (ts.countP (fun t => t.isEmpty)) * sep) := by
  induction ts with
  | nil => simp
  | cons t ts ih =>
    simp only [List.map_cons, List.flatten_cons, List.length_append]
    rw [ih]
    cases t with
    | nil =>
      simp
      ring
    | cons c t2 =>
      simp
      ring

/-! The claims. -/

theorem inference_phrase_empty_any (s : Synthesizer) (sep : ℕ) :
    s.inference_phrase [] sep = (List.replicate sep (0 : ℤ), s.sampling_rate) := by
  simp [Synthesizer.inference_phrase, phraseTexts, pyStrip, splitNL]

/-- Claim C7: `inference_phrase("")` — a single empty line — returns exactly
`silence_length` zero-valued samples (with the default `silence_length`
of 4000), together with the configured sampling rate. -/
theorem inference_phrase_empty (s : Synthesizer) :
    s.inference_phrase [] 4000 = (List.replicate 4000 (0 : ℤ), s.sampling_rate) :=
  inference_phrase_empty_any s 4000

/-- Claim C2, counterexample: for the phrase `"\na"` the code's split
(`phrase.strip().split('\n')`) yields only `["a"]`, while the line-break
split of the phrase itself is `["", "a"]` — the leading empty line is
dropped, so the split does not include every empty line. -/
theorem phrase_split_cex :
    phraseTexts ('\n' :: 'a' :: []) = [['a']]
    ∧ splitNL ('\n' :: 'a' :: []) = [[], ['a']]
    ∧ phraseTexts ('\n' :: 'a' :: []) ≠ splitNL ('\n' :: 'a' :: []) := by
  decide

/-- Claim C2, amended: for every phrase that neither starts nor ends with
whitespace, `inference_phrase` splits it on line breaks into exactly the
ordered sequence of all its lines — empty (interior) lines included — and
returns the concatenation of the per-line segments in that order, nothing
reordered, dropped or deduplicated. -/
theorem phrase_split_after_strip (s : Synthesizer) (phrase : PyStr) (sep : ℕ)
    (h1 : headNotSpace phrase = true) (h2 : lastNotSpace phrase = true) :
    phraseTexts phrase = splitNL phrase
    ∧ (s.inference_phrase phrase sep).1
        = ((splitNL phrase).map (fun t =>
            if t ≠ [] then (s.inference t).1
            else List.replicate sep (0 : ℤ))).flatten := by
  have hs : pyStrip phrase = phrase := pyStrip_eq_self phrase h1 h2
  constructor
  · simp [phraseTexts, hs]
  · simp [Synthesizer.inference_phrase, phraseTexts, hs]

theorem phrase_split_after_strip_witness :
    phraseTexts ('a' :: '\n' :: '\n' :: 'b' :: [])
        = splitNL ('a' :: '\n' :: '\n' :: 'b' :: [])
    ∧ ((Synthesizer.mk (fun t => [(t.length : ℤ)]) 22050).inference_phrase
          ('a' :: '\n' :: '\n' :: 'b' :: []) 4000).1
        = ((splitNL ('a' :: '\n' :: '\n' :: 'b' :: [])).map (fun t =>
            if t ≠ [] then
              ((Synthesizer.mk (fun t2 => [(t2.length : ℤ)]) 22050).inference t).1
            else List.replicate 4000 (0 : ℤ))).flatten :=
  phrase_split_after_strip (Synthesizer.mk (fun t => [(t.length : ℤ)]) 22050)
    ('a' :: '\n' :: '\n' :: 'b' :: []) 4000 (by decide) (by decide)

/-- Claim C3, counterexample: for the phrase `"\n"` — two empty lines when
split on line breaks, so `k = 2`, `m = 2` — with `silence_length = 5` the
claim predicts `2 * 5 = 10` samples, but `inference_phrase` strips the
phrase to `""` first and returns a single silence segment of 5 samples. -/
theorem inference_phrase_length_cex :
    ¬ ((((Synthesizer.mk (fun _ => ([] : List ℤ)) 22050).inference_phrase
          ['\n'] 5).1).length
        = (((splitNL ['\n']).filter (fun t => !t.isEmpty)).map
              (fun t => (((Synthesizer.mk (fun _ => ([] : List ℤ)) 22050).inference
                t).1).length)).sum
          + ((splitNL ['\n']).countP (fun t => t.isEmpty)) * 5) := by
  decide

/-- Claim C3, amended: with `k` and `m` counted over the lines of the
whitespace-stripped phrase (the code splits `phrase.strip()`), the returned
concatenation's total sample count equals the sum of the `k - m` synthesized
segment lengths plus `m * silence_length`. -/
theorem inference_phrase_length (s : Synthesizer) (phrase : PyStr) (sep : ℕ) :
    ((s.inference_phrase phrase sep).1).length
      = (((phraseTexts phrase).filter (fun t => !t.isEmpty)).map
            (fun t => ((s.inference t).1).length)).sum
        + ((phraseTexts phrase).countP (fun t => t.isEmpty)) * sep := by
  simpa [Synthesizer.inference_phrase] using
    flatten_map_length s sep (phraseTexts phrase)

/-- Claim C4, counterexample: for the single-line texts `A = " x"` and
`B = "y"`, the phrase `"A\nB" = " x\ny"` is stripped before splitting, so
the first synthesized line is `"x"`, not `A = " x"`: with a synthesizer
whose per-sentence output is `[length of the sentence]`, the code returns
`[1, 1]` while the claim predicts `inference(" x") ++ inference("y")
= [2, 1]`. -/
theorem inference_phrase_concat_cex :
    ((Synthesizer.mk (fun t => [(t.length : ℤ)]) 22050).inference_phrase
        (' ' :: 'x' :: '\n' :: 'y' :: []) 4000).1
      ≠ ((Synthesizer.mk (fun t => [(t.length : ℤ)]) 22050).inference
          (' ' :: 'x' :: [])).1
        ++ ((Synthesizer.mk (fun t => [(t.length : ℤ)]) 22050).inference
          ('y' :: [])).1 := by
  decide

/-- Claim C4, amended: for nonempty single-line (newline-free) texts `A`
and `B`, where `A` does not start with whitespace and `B` does not end with
whitespace, `inference_phrase(A ++ "\n" ++ B)` returns, sample for sample,
`inference(A) ++ inference(B)` with the same (configured) sampling rate. -/
theorem inference_phrase_two_lines (s : Synthesizer) (A B : PyStr) (sep : ℕ)
    (hA : A ≠ []) (hB : B ≠ []) (hAn : '\n' ∉ A) (hBn : '\n' ∉ B)
    (hAh : headNotSpace A = true) (hBl : lastNotSpace B = true) :
    s.inference_phrase (A ++ '\n' :: B) sep
      = ((s.inference A).1 ++ (s.inference B).1, s.sampling_rate) := by
  have h1 : headNotSpace (A ++ '\n' :: B) = true := by
    cases A with
    | nil => exact absurd rfl hA
    | cons a t => simpa [headNotSpace] using hAh
  have hgl : (A ++ '\n' :: B).getLast? = B.getLast? := by
    rw [show A ++ '\n' :: B = (A ++ ['\n']) ++ B by simp]
    exact List.getLast?_append_of_ne_nil _ hB
  have h2 : lastNotSpace (A ++ '\n' :: B) = true := by
    unfold lastNotSpace
    rw [hgl]
    exact hBl
  have hs : pyStrip (A ++ '\n' :: B) = A ++ '\n' :: B :=
    pyStrip_eq_self _ h1 h2
  simp [Synthesizer.inference_phrase, phraseTexts, hs,
    splitNL_two A B hAn hBn, hA, hB]

theorem inference_phrase_two_lines_witness :
    (Synthesizer.mk (fun t => [(t.length : ℤ)]) 22050).inference_phrase
        (('a' :: []) ++ '\n' :: ('b' :: [])) 4000
      = (((Synthesizer.mk (fun t => [(t.length : ℤ)]) 22050).inference
            ('a' :: [])).1
          ++ ((Synthesizer.mk (fun t => [(t.length : ℤ)]) 22050).inference
            ('b' :: [])).1,
         22050) :=
  inference_phrase_two_lines (Synthesizer.mk (fun t => [(t.length : ℤ)]) 22050)
    ('a' :: []) ('b' :: []) 4000 (by decide) (by decide) (by decide) (by decide)
    (by decide) (by decide)

/-- Claim C1 (the code versus the documented intent): `load_checkpoint` does
not strip the `module.` prefix — `remove_module_prefix` (src/main.py:18) is
defined for exactly that purpose but never called — so a bundle whose
`state_dict` carries `module.`-prefixed parameter names is passed to the
strict `load_state_dict` as-is and fails with a key mismatch against a model
with unprefixed names, whereas applying ` remove_module_prefix` first, as
the claim describes, would load it successfully. -/
theorem load_checkpoint_keeps_module_keys :
    load_checkpoint
        (fun p => if p = sCkpt then some [(kStateDict, [(sModuleW, (5 : ℤ))])]
          else none)
        sCkpt (TModel.mk [(('w' :: []), (0 : ℤ))])
      = .error .Incompatible
    ∧ load_state_dict (TModel.mk [(('w' :: []), (0 : ℤ))])
        ( remove_module_prefix [(sModuleW, (5 : ℤ))])
      = .ok (TModel.mk [(('w' :: []), (5 : ℤ))]) := by
  constructor
  · rfl
  · rfl

/-- Claim C6: loading a bundle that lacks the `state_dict` field always
fails with the invalid-format error naming the bundle's actual top-level
keys — it never returns a model. -/
theorem load_checkpoint_invalid_format {V : Type}
    (fs : PyStr → Option (Bundle V)) (p : PyStr) (m : TModel V) (b : Bundle V)
    (hfs : fs p = some b) (hmiss : pyLookup b kStateDict = none) :
    load_checkpoint fs p m = .error (.InvalidFormat (b.map (fun kv => kv.1))) := by
  simp [load_checkpoint, hfs, hmiss]

theorem load_checkpoint_invalid_format_witness :
    load_checkpoint
        (fun p => if p = sCkpt then some [(sEpoch, ([] : StateDict ℤ))] else none)
        sCkpt (TModel.mk ([] : StateDict ℤ))
      = .error (.InvalidFormat [sEpoch]) :=
  load_checkpoint_invalid_format _ sCkpt (TModel.mk [])
    [(sEpoch, ([] : StateDict ℤ))] (by decide) (by decide)

/-- Claim C8: loading from a path that does not reference an existing file
fails with the not-found error (the failed `assert os.path.isfile`) — it is
not a silent no-op returning the model. -/
theorem load_checkpoint_not_found {V : Type}
    (fs : PyStr → Option (Bundle V)) (p : PyStr) (m : TModel V)
    (hfs : fs p = none) :
    load_checkpoint fs p m = .error .NotFound := by
  simp [load_checkpoint, hfs]

theorem load_checkpoint_not_found_witness :
    load_checkpoint (fun _ => (none : Option (Bundle ℤ))) sCkpt (TModel.mk [])
      = .error .NotFound :=
  load_checkpoint_not_found _ sCkpt (TModel.mk []) rfl

/-- Claim C9, counterexample: on the state dict
`{"module.w": 1, "w": 2}` — distinct keys that collapse to the same name
once `module.` is removed — the dict comprehension keeps only the last
value, returning `{"w": 2}`: the value `1` is dropped, so the result does
not have the same values as the input. -/
theorem module_key_collision_cex :
    remove_module_prefix [(sModuleW, (1 : ℤ)), (('w' :: []), 2)]
        = [(('w' :: []), 2)]
    ∧ ( remove_module_prefix [(sModuleW, (1 : ℤ)), (('w' :: []), 2)]).map
          (fun kv => kv.2)
        ≠ [(sModuleW, (1 : ℤ)), (('w' :: []), 2)].map (fun kv => kv.2) := by
  decide

/-- Claim C9, amended: provided the keys remain pairwise distinct after the
removal, ` remove_module_prefix` maps every key to the key with all its
`module.` occurrences removed (values and order untouched), and it is the
identity on state dicts none of whose keys contains the substring
`module.`. -/
theorem remove_module_prefix_of_nodup {V : Type}
    (state_dict : List (PyStr × V))
    (h : (state_dict.map (fun kv => stripModule kv.1)).Nodup) :
    remove_module_prefix state_dict
        = state_dict.map (fun kv => (stripModule kv.1, kv.2))
    ∧ ((∀ kv ∈ state_dict, hasModule kv.1 = false) →
        remove_module_prefix state_dict = state_dict) := by
  have hkeys : ((state_dict.map (fun kv => (stripModule kv.1, kv.2))).map
      Prod.fst).Nodup := by
    simpa [List.map_map, Function.comp] using h
  have hmain : remove_module_prefix state_dict
      = state_dict.map (fun kv => (stripModule kv.1, kv.2)) := by
    unfold remove_module_prefix
    exact dictOfPairs_eq_self _ hkeys
  refine ⟨hmain, fun hall => ?_⟩
  rw [hmain, map_strip_pair_id state_dict hall]

theorem remove_module_prefix_of_nodup_witness :
    remove_module_prefix [(sModuleW, (1 : ℤ)), (sModuleB, 2)]
        = [(sModuleW, (1 : ℤ)), (sModuleB, 2)].map
            (fun kv => (stripModule kv.1, kv.2))
    ∧ ((∀ kv ∈ [(sModuleW, (1 : ℤ)), (sModuleB, 2)], hasModule kv.1 = false) →
        remove_module_prefix [(sModuleW, (1 : ℤ)), (sModuleB, 2)]
          = [(sModuleW, (1 : ℤ)), (sModuleB, 2)]) :=
  remove_module_prefix_of_nodup [(sModuleW, (1 : ℤ)), (sModuleB, 2)] (by decide)

/-- Claim C5 (the code versus the documented intent): the `synthesize`
branch's checkpoint validation (src/main.py:183) reads
`args.tacotron_checkpoint`, an attribute the parser never defines (it
defines `best_tacotron_path` / `best_waveglow_path`), so for every
parser-produced namespace — whatever values were supplied, in particular
whether or not the checkpoint paths are present or empty — the branch dies
with `AttributeError` before the guard can raise its `ValueError` and before
the `Synthesizer` is constructed, whatever the construction continuation
would do. -/
theorem synthesize_branch_attr_error {α : Type} (mode od ld : PyStr)
    (cp : Option PyStr) (ws : Bool) (ng : ℤ) (cfg : Option PyStr) (rk : ℤ)
    (gn btp bwp oa txt : PyStr) (hp : PyNamespace)
    (hhp : hp kTacotronCheckpoint = none)
    (construct : PyNamespace → Except PyError α) :
    synthesize_branch
        (parsedArgs mode od ld cp ws ng cfg rk gn btp bwp oa txt hp) construct
      = .error (.attributeError kTacotronCheckpoint) := by
  have hlook : parsedArgs mode od ld cp ws ng cfg rk gn btp bwp oa txt hp
      kTacotronCheckpoint = none := by
    simp only [parsedArgs]
    rw [if_neg (by decide), if_neg (by decide), if_neg (by decide),
      if_neg (by decide), if_neg (by decide), if_neg (by decide),
      if_neg (by decide), if_neg (by decide), if_neg (by decide),
      if_neg (by decide), if_neg (by decide), if_neg (by decide),
      if_neg (by decide)]
    exact hhp
  simp [synthesize_branch, getattrNS, hlook]

theorem synthesize_branch_attr_error_witness :
    synthesize_branch
        (parsedArgs [] [] [] none false 1 none 0 [] [] [] [] [] (fun _ => none))
        (fun _ => Except.ok (0 : ℤ))
      = .error (.attributeError kTacotronCheckpoint) :=
  synthesize_branch_attr_error [] [] [] none false 1 none 0 [] [] [] [] []
    (fun _ => none) rfl (fun _ => Except.ok 0)

/-- Claim C10: for every namespace produced by this program's own parser,
`Synthesizer.__init__` fails while reading the vocoder checkpoint path:
it reads `args.best_waveglow__path` (src/main.py:98) while the parser only
defines `best_waveglow_path`, so the read raises `AttributeError` — before
any model is constructed or any checkpoint is loaded, whatever the rest of
the construction would do. -/
theorem synthesizer_init_attr_error {α : Type} (mode od ld : PyStr)
    (cp : Option PyStr) (ws : Bool) (ng : ℤ) (cfg : Option PyStr) (rk : ℤ)
    (gn btp bwp oa txt : PyStr) (hp : PyNamespace)
    (hhp : hp kBestWaveglowUUPath = none)
    (rest : PyVal → PyVal → Except PyError α) :
    synthesizer_init
        (parsedArgs mode od ld cp ws ng cfg rk gn btp bwp oa txt hp) rest
      = .error (.attributeError kBestWaveglowUUPath) := by
  have hbt : parsedArgs mode od ld cp ws ng cfg rk gn btp bwp oa txt hp
      kBestTacotronPath = some (.vstr btp) := by
    simp only [parsedArgs]
    rw [if_neg (by decide), if_neg (by decide), if_neg (by decide),
      if_neg (by decide), if_neg (by decide), if_neg (by decide),
      if_neg (by decide), if_neg (by decide), if_neg (by decide)]
    simp
  have hbw : parsedArgs mode od ld cp ws ng cfg rk gn btp bwp oa txt hp
      kBestWaveglowUUPath = none := by
    simp only [parsedArgs]
    rw [if_neg (by decide), if_neg (by decide), if_neg (by decide),
      if_neg (by decide), if_neg (by decide), if_neg (by decide),
      if_neg (by decide), if_neg (by decide), if_neg (by decide),
      if_neg (by decide), if_neg (by decide), if_neg (by decide),
      if_neg (by decide)]
    exact hhp
  simp [synthesizer_init, getattrNS, hbt, hbw]

theorem synthesizer_init_attr_error_witness :
    synthesizer_init
        (parsedArgs [] [] [] none false 1 none 0 [] [] [] [] [] (fun _ => none))
        (fun _ _ => Except.ok (0 : ℤ))
      = .error (.attributeError kBestWaveglowUUPath) :=
  synthesizer_init_attr_error [] [] [] none false 1 none 0 [] [] [] [] []
    (fun _ => none) rfl (fun _ _ => Except.ok 0)
